import Mathlib

/-!
# Verification of the gbm-tokenizer serving and provisioning layer

Shallow embedding of the TypeScript sources of `sumitesh9/gbm-tokenizer`:

* `ui/pages/api/tokenize.ts` — the HTTP handler that validates requests,
  ensures the model artifact is present, and tokenizes via a spawned
  Python process (`tokenizeTextSpawn` below);
* the in-process variant of the same API route, whose `tokenizeText`
  calls the SentencePiece processor directly (`tokenizeText` below);
* `ui/lib/azureModel.ts` — `ensureGbmModelDownloaded`, the Azure Blob
  Storage fetch-and-cache of `gbm_tokenizer.model` (`ensureBody`,
  `ensureCall` below);
* `ui/utils/spTokenizer.ts` — `getSentencePiece`, the module-level cache
  of the loaded SentencePiece processor.

External effects (filesystem, Azure, the child process) are modelled as
oracle values recorded in a `World`/outcome structure; each constructor
corresponds to exactly one branch of the source.  JavaScript promise
rejection is modelled by `Except Unit`.
-/

namespace GbmTokenizer

/-- Error codes of the tokenize API route (`type TokenizeErrorCode` in
`ui/pages/api/tokenize.ts`; the in-process variant omits
`PYTHON_NOT_AVAILABLE` but is otherwise identical). -/
inductive TokenizeErrorCode
  | MODEL_NOT_READY
  | PYTHON_NOT_AVAILABLE
  | TOKENIZE_FAILED
  | BAD_REQUEST
  | METHOD_NOT_ALLOWED
  deriving DecidableEq, Repr

/-- `type TokenizeResponse = { tokens, ids, count, error? }`. -/
structure TokenizeResponse where
  tokens : List String
  ids : List Int
  count : Nat
  error : Option TokenizeErrorCode
  deriving DecidableEq, Repr

/-- The `{ tokens: [], ids: [], count: 0, error: { code } }` literal that
every error branch of the API route returns. -/
def emptyErrorResponse (c : TokenizeErrorCode) : TokenizeResponse :=
  { tokens := [], ids := [], count := 0, error := some c }

/-! ## The SentencePiece adapter

The `SentencePieceProcessor` implementation lives in the external
`@sctg/sentencepiece-js` package, not in this repository. -/

/-- Modelled from the spec: the loaded SentencePiece processor used by the
in-process `tokenizeText`.  Its implementation (`@sctg/sentencepiece-js`)
is not part of this repository; the spec's Tokenizer Adapter contract says
`encodePieces(text)` yields an ordered sequence of strings and
`encodeIds(text)` an ordered sequence of non-negative integers of the
"same cardinality and alignment".  We model one aligned encoding producing
(piece, id) pairs, with the spec's non-negativity as an invariant. -/
structure SentencePieceProcessor where
  encode : String → List (String × Int)
  encode_nonneg : ∀ t pr, pr ∈ encode t → 0 ≤ pr.2

/-- `spp.encodeIds(text)` — the id projection of the aligned encoding. -/
def encodeIds (spp : SentencePieceProcessor) (t : String) : List Int :=
  (spp.encode t).map Prod.snd

/-- `spp.encodePieces(text)` — the piece projection of the aligned encoding. -/
def encodePieces (spp : SentencePieceProcessor) (t : String) : List String :=
  (spp.encode t).map Prod.fst

/-- The in-process `tokenizeText(text, modelPath)`: on success it returns
`{ tokens, ids, count: tokens.length }`; if loading or encoding throws it
returns the `TOKENIZE_FAILED` error response.  The `spp` argument is
`some` of the loaded processor, or `none` when `getSentencePiece`/encode
threw. -/
def tokenizeText (spp : Option SentencePieceProcessor) (text : String) :
    TokenizeResponse :=
  match spp with
  | none => emptyErrorResponse .TOKENIZE_FAILED
  | some spp =>
    { tokens := encodePieces spp text
      ids := encodeIds spp text
      count := (encodePieces spp text).length
      error := none }

/-! ## The HTTP handler

Both API route variants (`ui/pages/api/tokenize.ts` and the in-process
one) have literally identical request-validation and model-readiness
logic; only the tokenization call differs, so the handler is modelled
once, parameterized by the tokenization function. -/

/-- Result of `ensureGbmModelDownloaded`:
`{ ok: true; localPath } | { ok: false; error }`. -/
inductive EnsureModelResult
  | ok (localPath : String)
  | err (error : String)
  deriving DecidableEq, Repr

/-- The JavaScript value found at `req.body.text`: absent/falsy non-string
(`undefined`, `null`, `0`, `false`, `NaN`), a truthy non-string value, or
an actual string. -/
inductive BodyText
  | absent
  | nonString
  | str (s : String)
  deriving DecidableEq, Repr

/-- The handler's validation `!text || typeof text !== "string"`: true for
absent/falsy values, for non-string values, and for the empty string. -/
def textInvalid : BodyText → Bool
  | .absent => true
  | .nonString => true
  | .str s => s == ""

/-- What one handler invocation produced: HTTP status, JSON body, and
whether the two effectful collaborators (`ensureGbmModelDownloaded`, the
tokenization call) were invoked on that path. -/
structure HandlerOutcome where
  status : Nat
  resp : TokenizeResponse
  ensureCalled : Bool
  tokenizeCalled : Bool
  deriving DecidableEq, Repr

/-- The API route `handler(req, res)`.  `method` is `req.method`, `text`
is `req.body.text`, `ensured` is the value `ensureGbmModelDownloaded()`
resolves with (only consumed on paths that call it), and `tok text
localPath` is the value the tokenization call resolves with. -/
def handler (method : String) (text : BodyText) (ensured : EnsureModelResult)
    (tok : String → String → TokenizeResponse) : HandlerOutcome :=
  if method ≠ "POST" then
    ⟨405, emptyErrorResponse .METHOD_NOT_ALLOWED, false, false⟩
  else if textInvalid text then
    ⟨400, emptyErrorResponse .BAD_REQUEST, false, false⟩
  else
    match text with
    | .str s =>
      match ensured with
      | .err _ => ⟨500, emptyErrorResponse .MODEL_NOT_READY, true, false⟩
      | .ok localPath =>
        let result := tok s localPath
        if result.error.isSome then ⟨500, result, true, true⟩
        else ⟨200, result, true, true⟩
    | .absent => ⟨400, emptyErrorResponse .BAD_REQUEST, false, false⟩
    | .nonString => ⟨400, emptyErrorResponse .BAD_REQUEST, false, false⟩

/-! ## `ensureGbmModelDownloaded` (`ui/lib/azureModel.ts`)

The filesystem and the Azure SDK are external; their behaviour on one
invocation is recorded in a `World` value, each constructor/field of which
corresponds to exactly one branch of the source.  Promise rejection of the
inner async function (possible only at the un-guarded
`fs.promises.mkdir`, the single fallible statement outside every
`try`/`catch`) is modelled by `Except.error ()`. -/

/-- JavaScript's `String.prototype.trim()`: strip leading and trailing
whitespace.  Modelled over the character list (rather than through
`String.trim`'s byte positions) so that it evaluates inside proofs. -/
def jsTrim (s : String) : String :=
  ⟨((s.data.dropWhile Char.isWhitespace).reverse.dropWhile
    Char.isWhitespace).reverse⟩

/-- `getEnv(name)`: the trimmed value when it is non-empty, else
`undefined`. -/
def getEnv (v : Option String) : Option String :=
  match v with
  | none => none
  | some s => if jsTrim s = "" then none else some (jsTrim s)

/-- `path.join`, modelled for POSIX paths. -/
def pathJoin (a b : String) : String := a ++ "/" ++ b

/-- The process environment and platform facts `azureModel.ts` reads. -/
structure AzEnv where
  connStrRaw : Option String
  containerRaw : Option String
  blobRaw : Option String
  forcedPathRaw : Option String
  isVercel : Bool
  tmpdir : String
  cwd : String
  deriving DecidableEq, Repr

/-- `defaultLocalModelPath()`:
`path.join(VERCEL ? os.tmpdir() : path.join(cwd, ".cache"), "gbm-tokenizer", "gbm_tokenizer.model")`. -/
def defaultLocalModelPath (e : AzEnv) : String :=
  pathJoin (pathJoin (if e.isVercel then e.tmpdir else pathJoin e.cwd ".cache")
    "gbm-tokenizer") "gbm_tokenizer.model"

/-- The local path the function operates on: the forced env override or the
default cache path. -/
def localPathOf (e : AzEnv) : String :=
  (getEnv e.forcedPathRaw).getD (defaultLocalModelPath e)

/-- How one pass through the Azure download section of
`ensureGbmModelDownloaded` plays out.  One constructor per source branch:
the three guarded early-error returns, an exception thrown inside the
`try` (before any byte reaches the temp file, while writing it, or at the
`rename`), or a completed stream-and-rename, after which
`fileLooksValid(localPath)` reports `downloadedValid`.  A thrown
exception's `.message` is `some m` when it is a string. -/
inductive AzureOutcome
  | noContainer
  | noBlob
  | noStream
  | throwBeforeWrite (msg : Option String)
  | throwDuringWrite (msg : Option String)
  | throwAtRename (msg : Option String)
  | success (downloadedValid : Bool)
  deriving DecidableEq, Repr

/-- All external behaviour one call of `ensureGbmModelDownloaded` can
observe: the env, whether `fileLooksValid(localPath)` held at the initial
check, whether `fs.promises.mkdir` succeeded, and the Azure outcome. -/
structure World where
  env : AzEnv
  fileValidBefore : Bool
  mkdirOk : Bool
  azure : AzureOutcome
  deriving DecidableEq, Repr

/-- Filesystem mutations of the download section, in the order performed:
the best-effort `unlink(tmpPath)` (pre-`try` and in the `catch`), the
write of the streamed bytes to `tmpPath`, and the
`rename(tmpPath, localPath)` — the only operation that ever touches
`localPath`. -/
inductive FsOp
  | unlinkTmp
  | writeTmp
  | renameTmpToLocal
  deriving DecidableEq, Repr

/-- The error message of the not-configured branch. -/
def msgNotConfigured : String :=
  "Model file missing locally and Azure download is not configured. " ++
  "Set AZURE_STORAGE_CONNECTION_STRING, AZURE_MODELS_CONTAINER, and GBM_TOKENIZER_BLOB_NAME."

/-- The `catch` block's message extraction: the thrown error's `.message`
when it is a string, else the fixed fallback text. -/
def errMsgOf (m : Option String) : String :=
  m.getD "Failed to download model."

/-- One execution of the async body of `ensureGbmModelDownloaded`
(the IIFE at lines 47–127 of `azureModel.ts`), returning what the promise
resolves with together with the ordered filesystem mutations of the
download section, or `Except.error ()` when the promise rejects
(`mkdir` threw). -/
def ensureBody (w : World) : Except Unit (EnsureModelResult × List FsOp) :=
  let localPath := localPathOf w.env
  if w.fileValidBefore then .ok (.ok localPath, [])
  else
    match getEnv w.env.connStrRaw, getEnv w.env.containerRaw,
        getEnv w.env.blobRaw with
    | some _, some cn, some bn =>
      if w.mkdirOk then
        match w.azure with
        | .noContainer =>
          .ok (.err ("Azure container does not exist: " ++ cn), [.unlinkTmp])
        | .noBlob =>
          .ok (.err ("Azure blob does not exist: container=" ++ cn ++
            " blob=" ++ bn), [.unlinkTmp])
        | .noStream =>
          .ok (.err "Azure download stream was not readable.", [.unlinkTmp])
        | .throwBeforeWrite m =>
          .ok (.err (errMsgOf m), [.unlinkTmp, .unlinkTmp])
        | .throwDuringWrite m =>
          .ok (.err (errMsgOf m), [.unlinkTmp, .writeTmp, .unlinkTmp])
        | .throwAtRename m =>
          .ok (.err (errMsgOf m), [.unlinkTmp, .writeTmp, .unlinkTmp])
        | .success dv =>
          if dv then
            .ok (.ok localPath, [.unlinkTmp, .writeTmp, .renameTmpToLocal])
          else
            .ok (.err ("Downloaded model is empty or invalid: " ++ localPath),
              [.unlinkTmp, .writeTmp, .renameTmpToLocal])
      else .error ()
    | _, _, _ => .ok (.err msgNotConfigured, [])

/-- The filesystem trace of one body execution. -/
def ensureTrace (w : World) : List FsOp :=
  match ensureBody w with
  | .ok (_, tr) => tr
  | .error () => []

/-- The module-level `let inFlight: Promise<EnsureModelResult> | null`:
`none`, or the settled state of the stored promise (`Except.error ()` for
a rejected one). -/
abbrev InFlight := Option (Except Unit EnsureModelResult)

instance : DecidableEq (Except Unit EnsureModelResult) := fun
  | .error (), .error () => isTrue rfl
  | .error (), .ok _ => isFalse (by simp)
  | .ok _, .error () => isFalse (by simp)
  | .ok a, .ok b =>
    if h : a = b then isTrue (by rw [h]) else isFalse (by simp [h])

/-- What one call of the exported `ensureGbmModelDownloaded()` did: what
it returned (or rejected with), the `inFlight` cell afterwards, and
whether the download body ran (as opposed to returning the cached
promise). -/
structure CallResult where
  result : Except Unit EnsureModelResult
  state : InFlight
  bodyRan : Bool
  deriving DecidableEq, Repr

/-- One call of `ensureGbmModelDownloaded()`.  If `inFlight` is set the
cached promise is returned unchanged (line 45).  Otherwise the body runs:
a rejection propagates and leaves `inFlight` holding the rejected promise
(the clearing line is never reached); a resolution with `ok: false`
clears `inFlight` (line 131); a success stays cached. -/
def ensureCall (st : InFlight) (w : World) : CallResult :=
  match st with
  | some r => ⟨r, some r, false⟩
  | none =>
    match ensureBody w with
    | .error () => ⟨.error (), some (.error ()), true⟩
    | .ok (.ok p, _) => ⟨.ok (.ok p), some (.ok (.ok p)), true⟩
    | .ok (.err e, _) => ⟨.ok (.err e), none, true⟩

/-- A sequence of calls of `ensureGbmModelDownloaded()` within one process
lifetime, threading the module state. -/
def ensureSeqRun (st : InFlight) : List World → List CallResult
  | [] => []
  | w :: ws =>
    let c := ensureCall st w
    c :: ensureSeqRun c.state ws

/-! ## `getSentencePiece` (`ui/utils/spTokenizer.ts`) -/

/-- The two module-level cells of `spTokenizer.ts`:
`let sppPromise: Promise<SentencePieceProcessor> | null` (represented by
the identity of the load that produced it) and
`let loadedModelPath: string | null`. -/
structure SpState where
  loadedModelPath : Option String
  sppId : Option Nat
  deriving DecidableEq, Repr

/-- One call of `getSentencePiece(modelPath)`.  `fresh` is the identity a
new load would get.  Returns the new module state, the identity of the
promise handed back, and whether a model load was started.  Mirrors:
`if (sppPromise && loadedModelPath === modelPath) return sppPromise;`
then reassign both cells and load. -/
def getSentencePiece (st : SpState) (fresh : Nat) (p : String) :
    SpState × Nat × Bool :=
  match st.sppId with
  | some i =>
    if st.loadedModelPath = some p then (st, i, false)
    else (⟨some p, some fresh⟩, fresh, true)
  | none => (⟨some p, some fresh⟩, fresh, true)

/-- Run a sequence of `getSentencePiece` calls from a given state, using
the call index as the fresh load identity; yields per call the returned
promise identity and whether that call loaded the model. -/
def spRunFrom (st : SpState) (ctr : Nat) : List String → List (Nat × Bool)
  | [] => []
  | p :: ps =>
    let r := getSentencePiece st ctr p
    (r.2.1, r.2.2) :: spRunFrom r.1 (ctr + 1) ps

/-- The per-call (path, loaded?) events of a fresh process running the
given sequence of `getSentencePiece` calls. -/
def loadEvents (ps : List String) : List (String × Bool) :=
  ps.zip ((spRunFrom ⟨none, none⟩ 0 ps).map Prod.snd)

/-! ## The process-spawning `tokenizeText` (`ui/pages/api/tokenize.ts`) -/

/-- What `JSON.parse(stdout.trim())` produced on the zero-exit path:
a parse exception, a parsed object carrying an `error` field, or any other
parsed value — which the source casts and resolves as the response. -/
inductive ParsedStdout
  | parseFail
  | objWithErrorField
  | value (v : TokenizeResponse)
  deriving DecidableEq, Repr

/-- How the spawned `python3 tokenize_api.py` interaction played out:
the script file is missing, the process emitted an `error` event, the
process closed with an exit code and the given (parsed) stdout, or the
synchronous executor body threw. -/
inductive PyOutcome
  | scriptMissing
  | spawnError
  | closed (code : Int) (parsed : ParsedStdout)
  | executorThrow
  deriving DecidableEq, Repr

/-- The process-spawning `tokenizeText(text)` of `ui/pages/api/tokenize.ts`:
the value the returned promise resolves with, for each outcome of the
child-process interaction.  Every branch of the source calls `resolve`;
none rejects, which the totality of this function reflects. -/
def tokenizeTextSpawn : PyOutcome → TokenizeResponse
  | .scriptMissing => emptyErrorResponse .PYTHON_NOT_AVAILABLE
  | .spawnError => emptyErrorResponse .PYTHON_NOT_AVAILABLE
  | .closed code parsed =>
    if code ≠ 0 then emptyErrorResponse .TOKENIZE_FAILED
    else
      match parsed with
      | .parseFail => emptyErrorResponse .TOKENIZE_FAILED
      | .objWithErrorField => emptyErrorResponse .TOKENIZE_FAILED
      | .value v => v
  | .executorThrow => emptyErrorResponse .TOKENIZE_FAILED

/-! ## The Metrics Engine's per-case compression (eval.py) -/

/-- Modelled from the spec: `eval.py`'s Metrics Engine is not among the
provided sources; per the spec it computes the per-case compression as
`len(text)/max(1, len(pieces))`, guarding the divide-by-zero on
zero-token outputs. -/
def compressionOfCase (text : String) (pieces : List String) : ℚ :=
  (text.length : ℚ) / ((max 1 pieces.length : ℕ) : ℚ)

/-! ## Supporting definitions for the verification -/

instance : DecidableEq (Except Unit (EnsureModelResult × List FsOp)) := fun
  | .error (), .error () => isTrue rfl
  | .error (), .ok _ => isFalse (by simp)
  | .ok _, .error () => isFalse (by simp)
  | .ok a, .ok b =>
    if h : a = b then isTrue (by rw [h]) else isFalse (by simp [h])

/-- The `.message` of the exception thrown inside the download `try`, when
the world's Azure outcome is a throw (`some msg`), else `none`. -/
def azureThrownMsg : AzureOutcome → Option (Option String)
  | .throwBeforeWrite m => some m
  | .throwDuringWrite m => some m
  | .throwAtRename m => some m
  | _ => none

/-- States the `inFlight` cell can actually be in: empty, a promise that
resolved successfully, or a rejected promise.  (A promise that resolved
with `ok: false` is never left in the cell: line 131 clears it.) -/
def goodState : InFlight → Prop := fun st =>
  match st with
  | some (.ok (.err _)) => False
  | _ => True

/-- A concrete processor for witness instantiations: every input encodes
to the single pair `("tok", 7)`. -/
def spp42 : SentencePieceProcessor where
  encode := fun _ => [("tok", 7)]
  encode_nonneg := by intro t pr h; simp at h; simp [h]

/-- A concrete environment with all three Azure variables set and a forced
local model path. -/
def envX : AzEnv :=
  { connStrRaw := some "cs", containerRaw := some "cont",
    blobRaw := some "blob", forcedPathRaw := some "/m.model",
    isVercel := false, tmpdir := "/tmp", cwd := "/app" }

/-- A concrete environment with none of the Azure variables set. -/
def envNoAzure : AzEnv :=
  { connStrRaw := none, containerRaw := none, blobRaw := none,
    forcedPathRaw := some "/m.model", isVercel := false, tmpdir := "/tmp",
    cwd := "/app" }

/-- Model file absent, Azure configured, but `fs.promises.mkdir` fails
(e.g. the cache directory is not writable). -/
def wMkdirFails : World :=
  { env := envX, fileValidBefore := false, mkdirOk := false,
    azure := .success true }

/-- Model file absent, Azure configured, download stream completes, but
the downloaded blob is empty: `fileLooksValid` fails after the rename. -/
def wEmptyDownload : World :=
  { env := envX, fileValidBefore := false, mkdirOk := true,
    azure := .success false }

/-- Model file absent and no Azure configuration. -/
def wEnvMissing : World :=
  { env := envNoAzure, fileValidBefore := false, mkdirOk := true,
    azure := .success true }

/-- Model file absent, Azure configured, download succeeds and validates. -/
def wDownloadOk : World :=
  { env := envX, fileValidBefore := false, mkdirOk := true,
    azure := .success true }

/-! ## Helper lemmas -/

lemma append_ne_empty (a b : String) (h : a ≠ "") : a ++ b ≠ "" := by
  intro hc
  apply h
  have hd := congrArg String.data hc
  simp [String.data_append] at hd
  exact String.ext hd.1

lemma errMsgOf_ne_or_empty (m : Option String) :
    errMsgOf m ≠ "" ∨ m = some "" := by
  rcases m with _ | m'
  · left; decide
  · by_cases h : m' = ""
    · right; rw [h]
    · left; simpa [errMsgOf] using h

lemma ensureSeqRun_cached (p : String) (ws : List World) :
    ∀ c ∈ ensureSeqRun (some (.ok (.ok p))) ws,
      c = ⟨.ok (.ok p), some (.ok (.ok p)), false⟩ := by
  induction ws with
  | nil => intro c hc; simp [ensureSeqRun] at hc
  | cons w ws ih =>
    intro c hc
    simp only [ensureSeqRun, ensureCall, List.mem_cons] at hc
    rcases hc with h | h
    · exact h
    · exact ih c h

/-! ## Claim theorems -/

/-- C1: for every input text that is successfully encoded, the sequence of
token ids has the same length as the sequence of token pieces —
`len(encodeIds(text)) == len(encodePieces(text))` — every id is a
non-negative integer, and the in-process `tokenizeText` success response
carries equally long `ids` and `tokens` arrays. -/
theorem c1_ids_pieces_aligned (spp : SentencePieceProcessor) (t : String) :
    (encodeIds spp t).length = (encodePieces spp t).length ∧
    (∀ i, i ∈ encodeIds spp t → 0 ≤ i) ∧
    (tokenizeText (some spp) t).ids.length =
      (tokenizeText (some spp) t).tokens.length := by
  refine ⟨by simp [encodeIds, encodePieces], ?_,
    by simp [tokenizeText, encodeIds, encodePieces]⟩
  intro i hi
  simp only [encodeIds, List.mem_map] at hi
  obtain ⟨pr, hpr, hie⟩ := hi
  exact hie ▸ spp.encode_nonneg t pr hpr

/-- Witness for C1 at the concrete processor `spp42` and input `"ab"`. -/
theorem c1_ids_pieces_aligned_witness :
    (encodeIds spp42 "ab").length = (encodePieces spp42 "ab").length ∧
    (0 : Int) ≤ 7 :=
  ⟨(c1_ids_pieces_aligned spp42 "ab").1,
    (c1_ids_pieces_aligned spp42 "ab").2.1 7 (by simp [encodeIds, spp42])⟩

/-- C2: a non-POST request is answered with status 405 and
`METHOD_NOT_ALLOWED`; a POST whose body `text` is empty, absent or not a
string is answered with status 400 and `BAD_REQUEST`; both responses
carry `tokens = []`, `ids = []`, `count = 0`, and on both paths neither
`ensureGbmModelDownloaded` nor the tokenizer is invoked. -/
theorem c2_request_validation (method : String) (text : BodyText)
    (ensured : EnsureModelResult) (tok : String → String → TokenizeResponse) :
    (method ≠ "POST" →
      handler method text ensured tok =
        ⟨405, emptyErrorResponse .METHOD_NOT_ALLOWED, false, false⟩) ∧
    (method = "POST" → textInvalid text = true →
      handler method text ensured tok =
        ⟨400, emptyErrorResponse .BAD_REQUEST, false, false⟩) := by
  constructor
  · intro h
    simp [handler, h]
  · intro hm ht
    subst hm
    simp [handler, ht]

/-- Witness for C2: a GET request and a POST with empty `text`. -/
theorem c2_request_validation_witness :
    handler "GET" (.str "hi") (.err "x")
        (fun _ _ => emptyErrorResponse .TOKENIZE_FAILED) =
      ⟨405, emptyErrorResponse .METHOD_NOT_ALLOWED, false, false⟩ ∧
    handler "POST" (.str "") (.err "x")
        (fun _ _ => emptyErrorResponse .TOKENIZE_FAILED) =
      ⟨400, emptyErrorResponse .BAD_REQUEST, false, false⟩ :=
  ⟨(c2_request_validation "GET" (.str "hi") (.err "x")
      (fun _ _ => emptyErrorResponse .TOKENIZE_FAILED)).1 (by decide),
    (c2_request_validation "POST" (.str "") (.err "x")
      (fun _ _ => emptyErrorResponse .TOKENIZE_FAILED)).2 rfl (by decide)⟩

/-- C3: on a valid POST, if `ensureGbmModelDownloaded` resolves with
`ok == false` the handler answers with status 500, `MODEL_NOT_READY`,
`tokens = []`, `ids = []`, `count = 0`, and the tokenizer is not invoked
(`tokenizeCalled = false` in the outcome). -/
theorem c3_model_not_ready (method s e : String)
    (tok : String → String → TokenizeResponse)
    (hm : method = "POST") (hs : s ≠ "") :
    handler method (.str s) (.err e) tok =
      ⟨500, emptyErrorResponse .MODEL_NOT_READY, true, false⟩ := by
  subst hm
  simp [handler, textInvalid, hs]

/-- Witness for C3 at a concrete valid POST with a failed provisioning
result. -/
theorem c3_model_not_ready_witness :
    handler "POST" (.str "hello") (.err "nope")
        (fun _ _ => emptyErrorResponse .TOKENIZE_FAILED) =
      ⟨500, emptyErrorResponse .MODEL_NOT_READY, true, false⟩ :=
  c3_model_not_ready "POST" "hello" "nope"
    (fun _ _ => emptyErrorResponse .TOKENIZE_FAILED) rfl (by decide)

/-- C7: the Metrics Engine's per-case compression equals
`len(text)/max(1, len(pieces))`; when the piece list is non-empty this is
exactly `len(text)/len(pieces)`, and a zero-token output still yields the
defined value `len(text)` rather than a division error. -/
theorem c7_compression_of_case (text : String) (pieces : List String)
    (h : pieces ≠ []) :
    compressionOfCase text pieces =
      (text.length : ℚ) / (pieces.length : ℚ) ∧
    compressionOfCase text [] = (text.length : ℚ) := by
  constructor
  · unfold compressionOfCase
    have h1 : 1 ≤ pieces.length := List.length_pos.mpr h
    rw [max_eq_right h1]
  · simp [compressionOfCase]

/-- Witness for C7: four characters over two pieces compress at ratio 2. -/
theorem c7_compression_of_case_witness :
    compressionOfCase "abcd" ["ab", "cd"] = (4 : ℚ) / 2 := by
  have h := (c7_compression_of_case "abcd" ["ab", "cd"] (by decide)).1
  rw [h]
  norm_num [show "abcd".length = 4 from rfl]

/-- C8: the promise of the process-spawning `tokenizeText` always resolves
(the model function is total) and maps every failure mode — missing
script, spawn error, non-zero exit, unparseable stdout, or an `error`
field in the script output — to `PYTHON_NOT_AVAILABLE` or
`TOKENIZE_FAILED` with `tokens = []`, `ids = []`, `count = 0`. -/
theorem c8_spawn_always_resolves (code : Int) (ps : ParsedStdout) :
    tokenizeTextSpawn .scriptMissing =
      emptyErrorResponse .PYTHON_NOT_AVAILABLE ∧
    tokenizeTextSpawn .spawnError =
      emptyErrorResponse .PYTHON_NOT_AVAILABLE ∧
    (code ≠ 0 → tokenizeTextSpawn (.closed code ps) =
      emptyErrorResponse .TOKENIZE_FAILED) ∧
    tokenizeTextSpawn (.closed 0 .parseFail) =
      emptyErrorResponse .TOKENIZE_FAILED ∧
    tokenizeTextSpawn (.closed 0 .objWithErrorField) =
      emptyErrorResponse .TOKENIZE_FAILED ∧
    tokenizeTextSpawn .executorThrow =
      emptyErrorResponse .TOKENIZE_FAILED ∧
    (∀ c, (emptyErrorResponse c).tokens = [] ∧
      (emptyErrorResponse c).ids = [] ∧ (emptyErrorResponse c).count = 0 ∧
      (emptyErrorResponse c).error = some c) := by
  refine ⟨rfl, rfl, ?_, rfl, rfl, rfl, fun c => ⟨rfl, rfl, rfl, rfl⟩⟩
  intro h
  simp [tokenizeTextSpawn, h]

/-- Witness for C8 at exit code 1. -/
theorem c8_spawn_always_resolves_witness :
    tokenizeTextSpawn (.closed 1 .parseFail) =
      emptyErrorResponse .TOKENIZE_FAILED :=
  (c8_spawn_always_resolves 1 .parseFail).2.2.1 (by decide)

/-- C9: every response of the in-process handler satisfies
`count == tokens.length`: the success path sets `count` to the length of
the pieces array and every error path returns `count = 0` with empty
`tokens` and `ids`. -/
theorem c9_count_equals_tokens_length (method : String) (text : BodyText)
    (ensured : EnsureModelResult)
    (spp : String → Option SentencePieceProcessor) :
    ((handler method text ensured
        fun s p => tokenizeText (spp p) s).resp).count =
      ((handler method text ensured
        fun s p => tokenizeText (spp p) s).resp).tokens.length := by
  rcases text with _ | _ | s <;> rcases ensured with p | e <;>
    simp only [handler] <;> split_ifs <;>
    first
      | rfl
      | (rcases hsp : spp p with _ | spp' <;>
          simp [tokenizeText, hsp, emptyErrorResponse])

/-- C4 counterexample: `ensureGbmModelDownloaded` does NOT always resolve.
`fs.promises.mkdir` (line 69 of `azureModel.ts`) is the one fallible
statement outside every `try`/`catch`; in the world `wMkdirFails` (model
file absent, Azure configured, `mkdir` throws — e.g. the cache directory
is not writable) the async body, and hence the returned promise,
rejects. -/
theorem c4_counterexample : ensureBody wMkdirFails = Except.error () := by
  decide

/-- C4 amended: except when the unguarded `mkdir` throws (which makes the
promise reject), `ensureGbmModelDownloaded` resolves with either
`{ok: true, localPath}` — where the `fileLooksValid(localPath)` check
guarding that return (the initial check, or the post-rename one) reported
an existing non-empty regular file — or `{ok: false, error}`, whose
message is non-empty unless the caught exception carried an empty string
`.message`; in particular, when the model file is absent and any of the
three Azure environment variables is unset, it resolves `ok == false`
with a fixed non-empty message. -/
theorem c4_amended (w : World) :
    (ensureBody w = .error () →
      w.mkdirOk = false ∧ w.fileValidBefore = false) ∧
    (∀ p tr, ensureBody w = .ok (.ok p, tr) →
      p = localPathOf w.env ∧
      (w.fileValidBefore = true ∨ w.azure = .success true)) ∧
    (∀ e tr, ensureBody w = .ok (.err e, tr) →
      e ≠ "" ∨ azureThrownMsg w.azure = some (some "")) ∧
    (w.fileValidBefore = false ∧
      (getEnv w.env.connStrRaw = none ∨ getEnv w.env.containerRaw = none ∨
        getEnv w.env.blobRaw = none) →
      ensureBody w = .ok (.err msgNotConfigured, []) ∧
      msgNotConfigured ≠ "") := by
  have hmsg : msgNotConfigured ≠ "" := by decide
  obtain ⟨env, hfv, hmk, haz⟩ := w
  cases hfv with
  | true =>
    refine ⟨fun h => ?_, fun p tr h => ?_, fun e tr h => ?_, fun hc => ?_⟩
    · simp [ensureBody] at h
    · simp only [ensureBody, if_pos] at h
      simp at h
      exact ⟨h.1.symm, Or.inl rfl⟩
    · simp [ensureBody] at h
    · simp at hc
  | false =>
    rcases hc : getEnv env.connStrRaw with _ | cs
    · refine ⟨fun h => ?_, fun p tr h => ?_, fun e tr h => ?_, fun hcc => ?_⟩
      · simp [ensureBody, hc] at h
      · simp [ensureBody, hc] at h
      · simp [ensureBody, hc] at h
        exact Or.inl (by rw [← h.1]; exact hmsg)
      · exact ⟨by simp [ensureBody, hc], hmsg⟩
    · rcases hn : getEnv env.containerRaw with _ | cn
      · refine ⟨fun h => ?_, fun p tr h => ?_, fun e tr h => ?_, fun hcc => ?_⟩
        · simp [ensureBody, hc, hn] at h
        · simp [ensureBody, hc, hn] at h
        · simp [ensureBody, hc, hn] at h
          exact Or.inl (by rw [← h.1]; exact hmsg)
        · exact ⟨by simp [ensureBody, hc, hn], hmsg⟩
      · rcases hb : getEnv env.blobRaw with _ | bn
        · refine ⟨fun h => ?_, fun p tr h => ?_, fun e tr h => ?_,
            fun hcc => ?_⟩
          · simp [ensureBody, hc, hn, hb] at h
          · simp [ensureBody, hc, hn, hb] at h
          · simp [ensureBody, hc, hn, hb] at h
            exact Or.inl (by rw [← h.1]; exact hmsg)
          · exact ⟨by simp [ensureBody, hc, hn, hb], hmsg⟩
        · have henv : ∀ x : Prop,
              ((some cs = none ∨ some cn = none ∨ some bn = none) → x) := by
            intro x hx
            rcases hx with h | h | h <;> simp at h
          cases hmk with
          | false =>
            refine ⟨fun _ => ⟨rfl, rfl⟩, fun p tr h => ?_, fun e tr h => ?_,
              fun hcc => henv _ hcc.2⟩
            · simp [ensureBody, hc, hn, hb] at h
            · simp [ensureBody, hc, hn, hb] at h
          | true =>
            cases haz with
            | noContainer =>
              refine ⟨fun h => ?_, fun p tr h => ?_, fun e tr h => ?_,
                fun hcc => henv _ hcc.2⟩
              · simp [ensureBody, hc, hn, hb] at h
              · simp [ensureBody, hc, hn, hb] at h
              · simp [ensureBody, hc, hn, hb] at h
                exact Or.inl
                  (by rw [← h.1]; exact append_ne_empty _ _ (by decide))
            | noBlob =>
              refine ⟨fun h => ?_, fun p tr h => ?_, fun e tr h => ?_,
                fun hcc => henv _ hcc.2⟩
              · simp [ensureBody, hc, hn, hb] at h
              · simp [ensureBody, hc, hn, hb] at h
              · simp [ensureBody, hc, hn, hb] at h
                exact Or.inl (by
                  rw [← h.1]
                  exact append_ne_empty _ _
                    (append_ne_empty _ _ (append_ne_empty _ _ (by decide))))
            | noStream =>
              refine ⟨fun h => ?_, fun p tr h => ?_, fun e tr h => ?_,
                fun hcc => henv _ hcc.2⟩
              · simp [ensureBody, hc, hn, hb] at h
              · simp [ensureBody, hc, hn, hb] at h
              · simp [ensureBody, hc, hn, hb] at h
                exact Or.inl (by rw [← h.1]; decide)
            | throwBeforeWrite m =>
              refine ⟨fun h => ?_, fun p tr h => ?_, fun e tr h => ?_,
                fun hcc => henv _ hcc.2⟩
              · simp [ensureBody, hc, hn, hb] at h
              · simp [ensureBody, hc, hn, hb] at h
              · simp [ensureBody, hc, hn, hb] at h
                rcases errMsgOf_ne_or_empty m with hne | hme
                · exact Or.inl (by rw [← h.1]; exact hne)
                · exact Or.inr (by simp [azureThrownMsg, hme])
            | throwDuringWrite m =>
              refine ⟨fun h => ?_, fun p tr h => ?_, fun e tr h => ?_,
                fun hcc => henv _ hcc.2⟩
              · simp [ensureBody, hc, hn, hb] at h
              · simp [ensureBody, hc, hn, hb] at h
              · simp [ensureBody, hc, hn, hb] at h
                rcases errMsgOf_ne_or_empty m with hne | hme
                · exact Or.inl (by rw [← h.1]; exact hne)
                · exact Or.inr (by simp [azureThrownMsg, hme])
            | throwAtRename m =>
              refine ⟨fun h => ?_, fun p tr h => ?_, fun e tr h => ?_,
                fun hcc => henv _ hcc.2⟩
              · simp [ensureBody, hc, hn, hb] at h
              · simp [ensureBody, hc, hn, hb] at h
              · simp [ensureBody, hc, hn, hb] at h
                rcases errMsgOf_ne_or_empty m with hne | hme
                · exact Or.inl (by rw [← h.1]; exact hne)
                · exact Or.inr (by simp [azureThrownMsg, hme])
            | success dv =>
              cases dv with
              | true =>
                refine ⟨fun h => ?_, fun p tr h => ?_, fun e tr h => ?_,
                  fun hcc => henv _ hcc.2⟩
                · simp [ensureBody, hc, hn, hb] at h
                · simp [ensureBody, hc, hn, hb] at h
                  exact ⟨h.1.symm, Or.inr rfl⟩
                · simp [ensureBody, hc, hn, hb] at h
              | false =>
                refine ⟨fun h => ?_, fun p tr h => ?_, fun e tr h => ?_,
                  fun hcc => henv _ hcc.2⟩
                · simp [ensureBody, hc, hn, hb] at h
                · simp [ensureBody, hc, hn, hb] at h
                · simp [ensureBody, hc, hn, hb] at h
                  exact Or.inl
                    (by rw [← h.1]; exact append_ne_empty _ _ (by decide))

/-- Witness for C4 (amended, last conjunct): with no Azure configuration
and the model file absent, the call resolves `ok == false` with the fixed
non-empty message. -/
theorem c4_amended_witness :
    ensureBody wEnvMissing = .ok (.err msgNotConfigured, []) ∧
    msgNotConfigured ≠ "" :=
  (c4_amended wEnvMissing).2.2.2 ⟨rfl, Or.inl rfl⟩

/-- C5 counterexample: in the world `wEmptyDownload` — Azure configured,
model file absent, the blob downloads successfully but is empty — the
function returns a download error (`ok: false`) even though the trace
contains `rename(tmpPath, localPath)`: the invalid file was moved into
`localPath` before the validity check, so on this download error the file
at `localPath` IS created/modified, refuting the "state unchanged on
error" part of the claim. -/
theorem c5_counterexample :
    ensureBody wEmptyDownload =
      Except.ok (.err "Downloaded model is empty or invalid: /m.model",
        [.unlinkTmp, .writeTmp, .renameTmpToLocal]) ∧
    FsOp.renameTmpToLocal ∈ ensureTrace wEmptyDownload := by
  constructor <;> decide

/-- C5 amended: bytes are streamed to the temporary path and moved to
`localPath` by at most one rename, which happens only after the stream
completed (`writeTmp` precedes it in the trace, and only on a
`success` outcome); on any download error OTHER than a completed-but-
invalid download, no rename happens and a partially written temp file is
removed (the trace ends with `unlinkTmp`) — but a completed empty/invalid
download is renamed into `localPath` before validation, so that error
path does modify `localPath`. -/
theorem c5_amended (w : World) :
    (ensureTrace w).count .renameTmpToLocal ≤ 1 ∧
    (FsOp.renameTmpToLocal ∈ ensureTrace w →
      (∃ dv, w.azure = .success dv) ∧
      ensureTrace w = [.unlinkTmp, .writeTmp, .renameTmpToLocal]) ∧
    (∀ e tr, ensureBody w = .ok (.err e, tr) →
      (∀ dv, w.azure ≠ .success dv) →
      FsOp.renameTmpToLocal ∉ tr ∧
      (FsOp.writeTmp ∈ tr → tr.getLast? = some .unlinkTmp)) := by
  obtain ⟨env, hfv, hmk, haz⟩ := w
  cases hfv with
  | true =>
    refine ⟨by simp [ensureTrace, ensureBody], fun hmem => ?_,
      fun e tr h _ => ?_⟩
    · simp [ensureTrace, ensureBody] at hmem
    · simp [ensureBody] at h
  | false =>
    rcases hc : getEnv env.connStrRaw with _ | cs
    · refine ⟨by simp [ensureTrace, ensureBody, hc], fun hmem => ?_,
        fun e tr h _ => ?_⟩
      · simp [ensureTrace, ensureBody, hc] at hmem
      · simp [ensureBody, hc] at h
        obtain ⟨he, ht⟩ := h
        subst ht
        decide
    · rcases hn : getEnv env.containerRaw with _ | cn
      · refine ⟨by simp [ensureTrace, ensureBody, hc, hn], fun hmem => ?_,
          fun e tr h _ => ?_⟩
        · simp [ensureTrace, ensureBody, hc, hn] at hmem
        · simp [ensureBody, hc, hn] at h
          obtain ⟨he, ht⟩ := h
          subst ht
          decide
      · rcases hb : getEnv env.blobRaw with _ | bn
        · refine ⟨by simp [ensureTrace, ensureBody, hc, hn, hb],
            fun hmem => ?_, fun e tr h _ => ?_⟩
          · simp [ensureTrace, ensureBody, hc, hn, hb] at hmem
          · simp [ensureBody, hc, hn, hb] at h
            obtain ⟨he, ht⟩ := h
            subst ht
            decide
        · cases hmk with
          | false =>
            refine ⟨by simp [ensureTrace, ensureBody, hc, hn, hb],
              fun hmem => ?_, fun e tr h _ => ?_⟩
            · simp [ensureTrace, ensureBody, hc, hn, hb] at hmem
            · simp [ensureBody, hc, hn, hb] at h
          | true =>
            cases haz with
            | noContainer =>
              refine ⟨by simp [ensureTrace, ensureBody, hc, hn, hb],
                fun hmem => ?_, fun e tr h _ => ?_⟩
              · simp [ensureTrace, ensureBody, hc, hn, hb] at hmem
              · simp [ensureBody, hc, hn, hb] at h
                obtain ⟨he, ht⟩ := h
                subst ht
                decide
            | noBlob =>
              refine ⟨by simp [ensureTrace, ensureBody, hc, hn, hb],
                fun hmem => ?_, fun e tr h _ => ?_⟩
              · simp [ensureTrace, ensureBody, hc, hn, hb] at hmem
              · simp [ensureBody, hc, hn, hb] at h
                obtain ⟨he, ht⟩ := h
                subst ht
                decide
            | noStream =>
              refine ⟨by simp [ensureTrace, ensureBody, hc, hn, hb],
                fun hmem => ?_, fun e tr h _ => ?_⟩
              · simp [ensureTrace, ensureBody, hc, hn, hb] at hmem
              · simp [ensureBody, hc, hn, hb] at h
                obtain ⟨he, ht⟩ := h
                subst ht
                decide
            | throwBeforeWrite m =>
              refine ⟨by simp [ensureTrace, ensureBody, hc, hn, hb],
                fun hmem => ?_, fun e tr h _ => ?_⟩
              · simp [ensureTrace, ensureBody, hc, hn, hb] at hmem
              · simp [ensureBody, hc, hn, hb] at h
                obtain ⟨he, ht⟩ := h
                subst ht
                decide
            | throwDuringWrite m =>
              refine ⟨by simp [ensureTrace, ensureBody, hc, hn, hb],
                fun hmem => ?_, fun e tr h _ => ?_⟩
              · simp [ensureTrace, ensureBody, hc, hn, hb] at hmem
              · simp [ensureBody, hc, hn, hb] at h
                obtain ⟨he, ht⟩ := h
                subst ht
                decide
            | throwAtRename m =>
              refine ⟨by simp [ensureTrace, ensureBody, hc, hn, hb],
                fun hmem => ?_, fun e tr h _ => ?_⟩
              · simp [ensureTrace, ensureBody, hc, hn, hb] at hmem
              · simp [ensureBody, hc, hn, hb] at h
                obtain ⟨he, ht⟩ := h
                subst ht
                decide
            | success dv =>
              refine ⟨?_, fun hmem => ⟨⟨dv, rfl⟩, ?_⟩, fun e tr h hns => ?_⟩
              · cases dv <;> simp [ensureTrace, ensureBody, hc, hn, hb]
              · cases dv <;> simp [ensureTrace, ensureBody, hc, hn, hb]
              · exact absurd rfl (hns dv)

/-- Witness for C5 (amended): on a valid successful download the trace is
exactly unlink-temp, write-temp, rename. -/
theorem c5_amended_witness :
    ensureTrace wDownloadOk =
      [FsOp.unlinkTmp, FsOp.writeTmp, FsOp.renameTmpToLocal] :=
  ((c5_amended wDownloadOk).2.1 (by decide)).2

/-- C6 counterexample: the module cache of `spTokenizer.ts` holds only the
most recently requested model path, so in the call sequence
`"a", "b", "a"` every call starts a load and the path `"a"` is loaded
twice — refuting "no model path is loaded a second time". -/
theorem c6_counterexample :
    loadEvents ["a", "b", "a"] =
      [("a", true), ("b", true), ("a", true)] ∧
    ((loadEvents ["a", "b", "a"]).filter
      (fun ev => ev.1 == "a" && ev.2)).length = 2 := by
  constructor <;> decide

/-- C6 amended: a call of `getSentencePiece` with the same path as the one
currently cached returns the cached loaded processor without a new load;
any other call (first call, or a different path than the cached one)
starts a fresh load and replaces the single-entry cache — so a path can
be loaded again once a different path intervenes. -/
theorem c6_amended (st : SpState) (fresh : Nat) (p : String) :
    (∀ i, st.sppId = some i → st.loadedModelPath = some p →
      getSentencePiece st fresh p = (st, i, false)) ∧
    (st.loadedModelPath ≠ some p ∨ st.sppId = none →
      getSentencePiece st fresh p = (⟨some p, some fresh⟩, fresh, true)) := by
  constructor
  · intro i hid hlp
    simp [getSentencePiece, hid, hlp]
  · intro h
    rcases hid : st.sppId with _ | i
    · simp [getSentencePiece, hid]
    · rcases h with h | h
      · simp [getSentencePiece, hid, h]
      · rw [hid] at h
        simp at h

/-- Witness for C6 (amended): with `"m"` cached under load identity 0, a
repeated call returns the cache unchanged, and a call for `"x"` loads. -/
theorem c6_amended_witness :
    getSentencePiece ⟨some "m", some 0⟩ 5 "m" = (⟨some "m", some 0⟩, 0, false) ∧
    getSentencePiece ⟨some "m", some 0⟩ 5 "x" = (⟨some "x", some 5⟩, 5, true) :=
  ⟨(c6_amended ⟨some "m", some 0⟩ 5 "m").1 0 rfl rfl,
    (c6_amended ⟨some "m", some 0⟩ 5 "x").2 (Or.inl (by decide))⟩

/-- C10: a failed provisioning result is never cached — a call of
`ensureGbmModelDownloaded` that (from a reachable `inFlight` state)
resolves with `ok == false` leaves `inFlight` cleared, and any call
finding `inFlight` empty runs the download body afresh; a call resolving
with `ok == true` leaves the success cached, and every subsequent call in
the process returns that same success without re-running the body.  The
`goodState` hypothesis (the cell never stores a resolved failure) is the
invariant every reachable `inFlight` state satisfies; its preservation by
every call is the last conjunct, and the initial state `none` satisfies it
trivially. -/
theorem c10_failure_not_cached (st : InFlight) (w w2 : World) (e p : String)
    (ws : List World) :
    (goodState st → (ensureCall st w).result = .ok (.err e) →
      (ensureCall st w).state = none ∧ (ensureCall none w2).bodyRan = true) ∧
    ((ensureCall st w).result = .ok (.ok p) →
      (ensureCall st w).state = some (.ok (.ok p)) ∧
      ∀ c ∈ ensureSeqRun (some (.ok (.ok p))) ws,
        c = ⟨.ok (.ok p), some (.ok (.ok p)), false⟩) ∧
    (goodState st → goodState (ensureCall st w).state) := by
  refine ⟨?_, ?_, ?_⟩
  · intro hg hr
    constructor
    · rcases st with _ | r
      · cases hb : ensureBody w with
        | error u =>
          cases u
          simp [ensureCall, hb] at hr
        | ok rt =>
          obtain ⟨r, tr⟩ := rt
          cases r with
          | ok q => simp [ensureCall, hb] at hr
          | err e' => simp [ensureCall, hb]
      · simp only [ensureCall] at hr ⊢
        rw [hr] at hg
        simp [goodState] at hg
    · cases hb2 : ensureBody w2 with
      | error u => cases u; simp [ensureCall, hb2]
      | ok rt =>
        obtain ⟨r, tr⟩ := rt
        cases r <;> simp [ensureCall, hb2]
  · intro hr
    refine ⟨?_, ensureSeqRun_cached p ws⟩
    rcases st with _ | r
    · cases hb : ensureBody w with
      | error u =>
        cases u
        simp [ensureCall, hb] at hr
      | ok rt =>
        obtain ⟨r, tr⟩ := rt
        cases r with
        | ok q =>
          simp [ensureCall, hb] at hr ⊢
          simp [hr]
        | err e' => simp [ensureCall, hb] at hr
    · simp only [ensureCall] at hr ⊢
      rw [hr]
  · intro hg
    rcases st with _ | r
    · cases hb : ensureBody w with
      | error u => cases u; simp [ensureCall, hb, goodState]
      | ok rt =>
        obtain ⟨r, tr⟩ := rt
        cases r <;> simp [ensureCall, hb, goodState]
    · simpa [ensureCall] using hg

/-- Witness for C10: a failing call (no Azure config) clears the cell; a
succeeding call caches the success, and the next call returns it without
running the body. -/
theorem c10_failure_not_cached_witness :
    ((ensureCall none wEnvMissing).state = none ∧
      (ensureCall none wDownloadOk).bodyRan = true) ∧
    (ensureCall none wDownloadOk).state =
      some (.ok (.ok "/m.model")) ∧
    ensureCall (some (.ok (.ok "/m.model"))) wEnvMissing =
      ⟨.ok (.ok "/m.model"), some (.ok (.ok "/m.model")), false⟩ := by
  refine ⟨(c10_failure_not_cached none wEnvMissing wDownloadOk
      msgNotConfigured "/m.model" []).1 trivial (by decide), ?_, ?_⟩
  · exact ((c10_failure_not_cached none wDownloadOk wDownloadOk "x"
      "/m.model" [wEnvMissing]).2.1 (by decide)).1
  · exact ((c10_failure_not_cached none wDownloadOk wDownloadOk "x"
      "/m.model" [wEnvMissing]).2.1 (by decide)).2
      (ensureCall (some (.ok (.ok "/m.model"))) wEnvMissing)
      (by simp [ensureSeqRun, ensureCall])

end GbmTokenizer
